import Mathlib

/-
Verification of the lazy-line-painter animation core (jQuery plugin).

The embedding models the timeline/draw core of the plugin:
  * the schedule-building loop inside the paint method (the init closure),
  * the per-frame draw function (stroke-dashoffset updates, completion),
  * adjustStartTime, pauseResume and erase,
  * the requestAnimationFrame / cancelAnimationFrame handle bookkeeping.

Numbers are modelled as rationals (JS numbers in the exercised range behave
as exact arithmetic here; no overflow or float rounding is relevant to the
claims).  DOM and SVG concerns (element creation, attribute styling) are out
of scope; a path element is represented by its measured length and its
mutable stroke-dashoffset, which is the only style the draw loop writes.
-/

/-- One entry of data.svgData: a stroke path descriptor.  The geometry itself
is opaque; only its measured total length (path.getTotalLength()) matters to
the core, so we carry the measurement as a field. -/
structure Segment where
  duration : ℚ
  reverse : Bool := false
  length : ℚ := 0
deriving DecidableEq

/-- One entry of data.paths as pushed by the init loop:
push of the record with duration, drawStartTime, path, length.  The path DOM
element is represented by its mutable strokeDashoffset style. -/
structure ScheduledPath where
  duration : ℚ
  drawStartTime : ℚ
  length : ℚ
  dashoffset : ℚ
deriving DecidableEq

/-- Result of the init loop: data.paths, data.longestDuration, data.playhead. -/
structure InitResult where
  paths : List ScheduledPath
  longestDuration : ℚ
  playhead : ℚ
deriving DecidableEq

/-- The per-segment scaled durations, duration * speedMultiplier
(line: duration = data.svgData[i].duration * data.speedMultiplier). -/
def scaled (m : ℚ) (segs : List Segment) : List ℚ :=
  segs.map (fun seg => seg.duration * m)

/-- The first loop of init: totalDuration = sum of duration * speedMultiplier. -/
def totalDurationInit (segs : List Segment) (m : ℚ) : ℚ :=
  (scaled m segs).sum

/-- The second loop of init, one recursive step per index i.  Parameters
mirror the mutable locals: playhead (data.playhead), totalRemaining (the local
totalDuration variable that is decremented in the reverse branch), longest
(data.longestDuration).  Each step computes the scaled duration, updates
longestDuration, picks drawStartTime from either the decremented
totalDuration (reverse) or the playhead (forward), pushes the path record
(strokeDasharray/strokeDashoffset are set to the measured length), and
advances the playhead. -/
def initLoop (m : ℚ) (rev : Bool) :
    List Segment → ℚ → ℚ → ℚ → InitResult
  | [], playhead, _, longest =>
      { paths := [], longestDuration := longest, playhead := playhead }
  | seg :: rest, playhead, totalRemaining, longest =>
      let duration := seg.duration * m
      let longest2 := if duration > longest then duration else longest
      let totalRemaining2 := if rev then totalRemaining - duration else totalRemaining
      let drawStartTime := if rev then totalRemaining2 else playhead
      let r := initLoop m rev rest (playhead + duration) totalRemaining2 longest2
      { paths := { duration := duration, drawStartTime := drawStartTime,
                   length := seg.length, dashoffset := seg.length } :: r.paths,
        longestDuration := r.longestDuration, playhead := r.playhead }

/-- The whole schedule-building part of init: the summation loop followed by
the path loop, started from playhead = 0 and longestDuration = 0. -/
def buildSchedule (segs : List Segment) (m : ℚ) (rev : Bool) : InitResult :=
  initLoop m rev segs 0 (totalDurationInit segs m) 0

/-- data.totalDuration = drawSequential ? playhead : longestDuration. -/
def totalDuration (segs : List Segment) (m : ℚ) (rev seq : Bool) : ℚ :=
  if seq then (buildSchedule segs m rev).playhead
  else (buildSchedule segs m rev).longestDuration

/-- The list of drawStartTime values of the built schedule, in path order. -/
def startOffsets (segs : List Segment) (m : ℚ) (rev : Bool) : List ℚ :=
  (buildSchedule segs m rev).paths.map ScheduledPath.drawStartTime

/-- The list of scaled durations of the built schedule, in path order. -/
def scaledDurations (segs : List Segment) (m : ℚ) (rev : Bool) : List ℚ :=
  (buildSchedule segs m rev).paths.map ScheduledPath.duration

/-- The longestDuration update step: if duration > longestDuration then
longestDuration = duration. -/
def jsMax (a b : ℚ) : ℚ := if b > a then b else a

/-- Lines 290-298 of draw: the per-path elapsed time.  Sequential mode
subtracts the path's drawStartTime and clamps negatives to 0; parallel mode
uses the timeline elapsed time unchanged. -/
def pathElapsedTime (seq : Bool) (p : ScheduledPath) (elapsed : ℚ) : ℚ :=
  if seq then
    (if elapsed - p.drawStartTime < 0 then 0 else elapsed - p.drawStartTime)
  else elapsed

/-- Lines 301-313 of draw, for one path: if the path is mid-animation
(0 < pathElapsedTime < duration) write the interpolated strokeDashoffset in
the direction selected by data.reverse or the per-segment reverse; if it is
past its duration (strictly) snap the offset to 0; otherwise leave the
offset untouched. -/
def drawPathUpdate (seq grev srev : Bool) (elapsed : ℚ) (p : ScheduledPath) :
    ScheduledPath :=
  let t := pathElapsedTime seq p elapsed
  if t < p.duration ∧ t > 0 then
    let frameLength := t / p.duration * p.length
    if grev || srev then { p with dashoffset := -p.length + frameLength }
    else { p with dashoffset := p.length - frameLength }
  else if t > p.duration then { p with dashoffset := 0 }
  else p

/-- The visible fraction the draw step computes for one path at a given
timeline elapsed time, threading the previous fraction for the untouched
branch: frameLength / length = pathElapsedTime / duration when
mid-animation, 1 once strictly past the duration, and the retained previous
value otherwise.  The lemma drawPathUpdate_fraction below ties this to the
strokeDashoffset writes of drawPathUpdate. -/
def visibleFraction (seq : Bool) (p : ScheduledPath) (elapsed old : ℚ) : ℚ :=
  let t := pathElapsedTime seq p elapsed
  if t < p.duration ∧ t > 0 then t / p.duration
  else if t > p.duration then 1 else old

/-- The fraction of a path revealed by a given strokeDashoffset, given the
sweep direction: a forward path is fully visible at offset 0 and hidden at
offset length; a reversed path is fully visible at offset 0 and hidden at
offset -length. -/
def fracOfOffset (rev : Bool) (len off : ℚ) : ℚ :=
  if rev then (len + off) / len else (len - off) / len

/-- The host frame scheduler: the set of requested-and-not-yet-cancelled
requestAnimationFrame handles, plus a counter supplying fresh handles. -/
structure Scheduler where
  pending : List Nat
  nextId : Nat
deriving DecidableEq

/-- requestAnimationFrame: returns a fresh handle and records it pending. -/
def requestFrame (s : Scheduler) : Nat × Scheduler :=
  (s.nextId, { pending := s.pending ++ [s.nextId], nextId := s.nextId + 1 })

/-- cancelAnimationFrame: best-effort removal of a handle. -/
def cancelFrame (h : Nat) (s : Scheduler) : Scheduler :=
  { pending := s.pending.filter (fun x => x != h), nextId := s.nextId }

/-- The plugin's per-element data object, restricted to the fields the
timeline core reads or writes. -/
structure PlaybackData where
  svgData : List Segment
  speedMultiplier : ℚ
  reverse : Bool
  drawSequential : Bool
  paths : List ScheduledPath
  longestDuration : ℚ
  playhead : ℚ
  totalDuration : ℚ
  startTime : Option ℚ
  elapsedTime : Option ℚ
  paused : Bool
  rAF : Nat
deriving DecidableEq

/-- The init closure of the paint method: rebuilds data.paths, playhead,
longestDuration and totalDuration from data.svgData, then requests the first
draw frame and stores its handle in data.rAF.  Note what it does NOT do: it
neither cancels a previously stored rAF handle nor clears startTime,
elapsedTime or paused. -/
def paintInit (d : PlaybackData) (s : Scheduler) : PlaybackData × Scheduler :=
  let r := buildSchedule d.svgData d.speedMultiplier d.reverse
  let hs := requestFrame s
  ({ d with paths := r.paths,
            longestDuration := r.longestDuration,
            playhead := r.playhead,
            totalDuration := if d.drawSequential then r.playhead else r.longestDuration,
            rAF := hs.1 }, hs.2)

/-- The draw function.  The startTime guard is the JS truthiness test
(!data.startTime), which treats both null and the number 0 as unset.  Paths
are updated in order, reading the per-segment reverse flag from
data.svgData[i].  If elapsedTime < totalDuration a new frame is requested
and its handle stored in data.rAF; otherwise nothing is rescheduled and the
returned flag records that the onComplete branch was reached. -/
def draw (ts : ℚ) (d : PlaybackData) (s : Scheduler) :
    PlaybackData × Scheduler × Bool :=
  let st := match d.startTime with
    | none => ts
    | some v => if v = 0 then ts else v
  let elapsed := ts - st
  let paths := (d.paths.zip d.svgData).map
    (fun pr => drawPathUpdate d.drawSequential d.reverse pr.2.reverse elapsed pr.1)
  let d2 := { d with startTime := some st, elapsedTime := some elapsed, paths := paths }
  if elapsed < d.totalDuration then
    let hs := requestFrame s
    ({ d2 with rAF := hs.1 }, hs.2, false)
  else (d2, s, true)

/-- adjustStartTime: data.startTime = timestamp - data.elapsedTime, then a
draw frame is requested (its handle is not stored in data.rAF).  A null
elapsedTime coerces to 0 under JS subtraction. -/
def adjustStartTime (ts : ℚ) (d : PlaybackData) (s : Scheduler) :
    PlaybackData × Scheduler :=
  ({ d with startTime := some (ts - d.elapsedTime.getD 0) }, (requestFrame s).2)

/-- pauseResume: when not paused, set paused and cancel the stored rAF
handle; when paused, clear paused and request an adjustStartTime frame
(whose handle is not stored).  The returned flag records whether the resume
branch ran (a frame was scheduled). -/
def pauseResume (d : PlaybackData) (s : Scheduler) :
    PlaybackData × Scheduler × Bool :=
  if !d.paused then
    ({ d with paused := true }, cancelFrame d.rAF s, false)
  else
    ({ d with paused := false }, (requestFrame s).2, true)

/-- erase: clears startTime and elapsedTime and cancels the stored rAF
handle.  Every other field of the data object is left untouched (the svg
contents are emptied, which is outside the playback state). -/
def erase (d : PlaybackData) (s : Scheduler) : PlaybackData × Scheduler :=
  ({ d with startTime := none, elapsedTime := none }, cancelFrame d.rAF s)

/-
Concrete states used to evaluate the model at specific inputs.
-/

/-- A 600ms segment of measured length 100. -/
def segA : Segment := { duration := 600, reverse := false, length := 100 }

/-- A segment with a negative duration. -/
def segNeg : Segment := { duration := -5, reverse := false, length := 100 }

/-- Three 600ms segments, as in the svg1 demo head. -/
def segsW : List Segment := [segA, segA, segA]

/-- A scheduled path of duration 600, start offset 0, length 100. -/
def pW : ScheduledPath :=
  { duration := 600, drawStartTime := 0, length := 100, dashoffset := 100 }

/-- A playback paused at elapsed time 100 over a single 600ms segment. -/
def dC5 : PlaybackData :=
  { svgData := [segA], speedMultiplier := 1, reverse := false, drawSequential := true,
    paths := (buildSchedule [segA] 1 false).paths,
    longestDuration := 600, playhead := 600, totalDuration := 600,
    startTime := some 40, elapsedTime := some 100, paused := true, rAF := 3 }

/-- Scheduler state accompanying dC5. -/
def sC5 : Scheduler := { pending := [], nextId := 4 }

/-- Resume of dC5: the pauseResume call (resume branch). -/
def runC5r : PlaybackData × Scheduler × Bool := pauseResume dC5 sC5

/-- The scheduled adjustStartTime frame firing at timestamp 100
(a timestamp exactly equal to the frozen elapsed time). -/
def runC5a : PlaybackData × Scheduler := adjustStartTime 100 runC5r.1 runC5r.2.1

/-- The following draw frame at timestamp 116. -/
def runC5d : PlaybackData × Scheduler × Bool := draw 116 runC5a.1 runC5a.2

/-- The same resume with the adjustStartTime frame firing at timestamp 200
instead, with the draw frame at the same instant. -/
def runC5a2 : PlaybackData × Scheduler := adjustStartTime 200 runC5r.1 runC5r.2.1

/-- Draw frame at timestamp 200 after the timestamp-200 resume. -/
def runC5d2 : PlaybackData × Scheduler × Bool := draw 200 runC5a2.1 runC5a2.2

/-- A freshly painted playback over a single 600ms segment, first frame not
yet fired. -/
def dC6 : PlaybackData :=
  { svgData := [segA], speedMultiplier := 1, reverse := false, drawSequential := true,
    paths := (buildSchedule [segA] 1 false).paths,
    longestDuration := 600, playhead := 600, totalDuration := 600,
    startTime := none, elapsedTime := none, paused := false, rAF := 0 }

/-- Scheduler state accompanying dC6. -/
def sC6 : Scheduler := { pending := [0], nextId := 1 }

/-- First draw frame of dC6, at timestamp 1000 (sets startTime). -/
def runC6a : PlaybackData × Scheduler × Bool := draw 1000 dC6 sC6

/-- Second draw frame at timestamp 1300 (elapsed 300, mid-animation). -/
def runC6b : PlaybackData × Scheduler × Bool := draw 1300 runC6a.1 runC6a.2.1

/-- Third draw frame at timestamp 1600: elapsed reaches exactly
totalDuration. -/
def runC6c : PlaybackData × Scheduler × Bool := draw 1600 runC6b.1 runC6b.2.1

/-- A running playback (frame handle 0 pending, elapsed 100) on which paint
is invoked a second time. -/
def dC9 : PlaybackData :=
  { svgData := [segA], speedMultiplier := 1, reverse := false, drawSequential := true,
    paths := (buildSchedule [segA] 1 false).paths,
    longestDuration := 600, playhead := 600, totalDuration := 600,
    startTime := some 50, elapsedTime := some 100, paused := false, rAF := 0 }

/-- Scheduler state accompanying dC9: the stored handle is pending. -/
def sC9 : Scheduler := { pending := [0], nextId := 1 }

/-- A not-yet-scheduled playback configured with speedMultiplier -1. -/
def dC8 : PlaybackData :=
  { svgData := [segA], speedMultiplier := -1, reverse := false, drawSequential := true,
    paths := [], longestDuration := 0, playhead := 0, totalDuration := 0,
    startTime := none, elapsedTime := none, paused := false, rAF := 0 }

/-- Scheduler state accompanying dC8. -/
def sC8 : Scheduler := { pending := [], nextId := 0 }

/-
Helper lemmas about the init loop and list arithmetic.
-/

lemma initLoop_paths_map_duration (m : ℚ) (rev : Bool) (segs : List Segment) :
    ∀ p t l : ℚ,
      (initLoop m rev segs p t l).paths.map ScheduledPath.duration = scaled m segs := by
  induction segs with
  | nil => intro p t l; simp [initLoop, scaled]
  | cons s rest ih =>
    intro p t l
    cases rev <;> simp [initLoop, scaled] <;>
      simpa [scaled] using ih (p + s.duration * m) _ _

lemma initLoop_paths_length (m : ℚ) (rev : Bool) (segs : List Segment) (p t l : ℚ) :
    (initLoop m rev segs p t l).paths.length = segs.length := by
  have h := congrArg List.length (initLoop_paths_map_duration m rev segs p t l)
  simpa [scaled] using h

lemma initLoop_playhead (m : ℚ) (rev : Bool) (segs : List Segment) :
    ∀ p t l : ℚ, (initLoop m rev segs p t l).playhead = p + (scaled m segs).sum := by
  induction segs with
  | nil => intro p t l; simp [initLoop, scaled]
  | cons s rest ih =>
    intro p t l
    cases rev <;> simp only [initLoop] <;> rw [ih] <;> simp [scaled] <;> ring

lemma jsMax_eq_or (a b : ℚ) : jsMax a b = a ∨ jsMax a b = b := by
  unfold jsMax; split
  · right; rfl
  · left; rfl

lemma le_jsMax_left (a b : ℚ) : a ≤ jsMax a b := by
  unfold jsMax; split <;> linarith

lemma le_jsMax_right (a b : ℚ) : b ≤ jsMax a b := by
  unfold jsMax; split <;> linarith

lemma foldl_jsMax_init_le (L : List ℚ) : ∀ a : ℚ, a ≤ L.foldl jsMax a := by
  induction L with
  | nil => intro a; simp
  | cons x xs ih =>
    intro a
    rw [List.foldl_cons]
    exact le_trans (le_jsMax_left a x) (ih (jsMax a x))

lemma foldl_jsMax_mem_le (L : List ℚ) : ∀ a x : ℚ, x ∈ L → x ≤ L.foldl jsMax a := by
  induction L with
  | nil => intro a x hx; simp at hx
  | cons y ys ih =>
    intro a x hx
    rw [List.foldl_cons]
    rcases List.mem_cons.mp hx with h | h
    · subst h
      exact le_trans (le_jsMax_right a x) (foldl_jsMax_init_le ys (jsMax a x))
    · exact ih (jsMax a y) x h

lemma foldl_jsMax_eq_init_or_mem (L : List ℚ) :
    ∀ a : ℚ, L.foldl jsMax a = a ∨ L.foldl jsMax a ∈ L := by
  induction L with
  | nil => intro a; left; rfl
  | cons x xs ih =>
    intro a
    rw [List.foldl_cons]
    rcases ih (jsMax a x) with h | h
    · rcases jsMax_eq_or a x with h2 | h2
      · left; rw [h, h2]
      · right; rw [h, h2]; exact List.mem_cons_self x xs
    · right; exact List.mem_cons_of_mem x h

lemma initLoop_longest (m : ℚ) (rev : Bool) (segs : List Segment) :
    ∀ p t l : ℚ,
      (initLoop m rev segs p t l).longestDuration = (scaled m segs).foldl jsMax l := by
  induction segs with
  | nil => intro p t l; simp [initLoop, scaled]
  | cons s rest ih =>
    intro p t l
    cases rev <;> simp only [initLoop] <;> rw [ih] <;> simp [scaled, jsMax]

lemma initLoop_offsets_fwd (m : ℚ) (segs : List Segment) :
    ∀ (p t l : ℚ) (i : ℕ), i < segs.length →
      ((initLoop m false segs p t l).paths.map ScheduledPath.drawStartTime).getD i 0
        = p + ((scaled m segs).take i).sum := by
  induction segs with
  | nil => intro p t l i h; simp at h
  | cons s rest ih =>
    intro p t l i h
    cases i with
    | zero => simp [initLoop, scaled]
    | succ n =>
      have hn : n < rest.length := by simpa using h
      simp only [initLoop, List.map_cons, List.getD_cons_succ, ih _ _ _ n hn]
      simp [scaled, List.take_succ_cons]
      ring

lemma initLoop_offsets_rev (m : ℚ) (segs : List Segment) :
    ∀ (p t l : ℚ) (i : ℕ), i < segs.length →
      ((initLoop m true segs p t l).paths.map ScheduledPath.drawStartTime).getD i 0
        = t - ((scaled m segs).take (i+1)).sum := by
  induction segs with
  | nil => intro p t l i h; simp at h
  | cons s rest ih =>
    intro p t l i h
    cases i with
    | zero => simp [initLoop, scaled]
    | succ n =>
      have hn : n < rest.length := by simpa using h
      simp only [initLoop, List.map_cons, List.getD_cons_succ, ih _ _ _ n hn]
      simp [scaled, List.take_succ_cons]
      ring

lemma scaled_length (m : ℚ) (segs : List Segment) :
    (scaled m segs).length = segs.length := by simp [scaled]

lemma scaled_nonneg (m : ℚ) (segs : List Segment)
    (hm : 0 ≤ m) (hdur : ∀ s ∈ segs, 0 ≤ s.duration) :
    ∀ x ∈ scaled m segs, 0 ≤ x := by
  intro x hx
  obtain ⟨s, hs, rfl⟩ := List.mem_map.mp hx
  exact mul_nonneg (hdur s hs) hm

lemma startOffsets_length (segs : List Segment) (m : ℚ) (rev : Bool) :
    (startOffsets segs m rev).length = segs.length := by
  simp [startOffsets, buildSchedule, initLoop_paths_length]

lemma scaledDurations_eq (segs : List Segment) (m : ℚ) (rev : Bool) :
    scaledDurations segs m rev = scaled m segs :=
  initLoop_paths_map_duration m rev segs 0 (totalDurationInit segs m) 0

lemma startOffsets_fwd (segs : List Segment) (m : ℚ) (i : ℕ) (h : i < segs.length) :
    (startOffsets segs m false).getD i 0 = ((scaled m segs).take i).sum := by
  have := initLoop_offsets_fwd m segs 0 (totalDurationInit segs m) 0 i h
  simpa [startOffsets, buildSchedule] using this

lemma startOffsets_rev (segs : List Segment) (m : ℚ) (i : ℕ) (h : i < segs.length) :
    (startOffsets segs m true).getD i 0
      = (scaled m segs).sum - ((scaled m segs).take (i+1)).sum := by
  have := initLoop_offsets_rev m segs 0 (totalDurationInit segs m) 0 i h
  simpa [startOffsets, buildSchedule, totalDurationInit] using this

lemma totalDuration_seq (segs : List Segment) (m : ℚ) (rev : Bool) :
    totalDuration segs m rev true = (scaled m segs).sum := by
  simp [totalDuration, buildSchedule, initLoop_playhead]

lemma totalDuration_par (segs : List Segment) (m : ℚ) (rev : Bool) :
    totalDuration segs m rev false = (scaled m segs).foldl jsMax 0 := by
  simp [totalDuration, buildSchedule, initLoop_longest]

lemma sum_take_succ_getD (L : List ℚ) :
    ∀ i, i < L.length → (L.take (i+1)).sum = (L.take i).sum + L.getD i 0 := by
  induction L with
  | nil => intro i h; simp at h
  | cons x xs ih =>
    intro i h
    cases i with
    | zero => simp
    | succ n =>
      have hn : n < xs.length := by simpa using h
      simp [List.take_succ_cons, ih n hn]
      ring

lemma sum_take_nonneg (L : List ℚ) (hL : ∀ x ∈ L, 0 ≤ x) (i : ℕ) :
    0 ≤ (L.take i).sum :=
  List.sum_nonneg (fun x hx => hL x (List.mem_of_mem_take hx))

lemma sum_take_mono (L : List ℚ) (hL : ∀ x ∈ L, 0 ≤ x) :
    ∀ i j, i ≤ j → (L.take i).sum ≤ (L.take j).sum := by
  induction L with
  | nil => intro i j hij; simp
  | cons x xs ih =>
    intro i j hij
    cases i with
    | zero =>
      simpa using sum_take_nonneg (x :: xs) hL j
    | succ n =>
      cases j with
      | zero => omega
      | succ k =>
        have hx : ∀ y ∈ xs, 0 ≤ y := fun y hy => hL y (List.mem_cons_of_mem x hy)
        have := ih hx n k (by omega)
        simp only [List.take_succ_cons, List.sum_cons]
        linarith

lemma sum_take_all (L : List ℚ) (i : ℕ) (h : L.length ≤ i) :
    (L.take i).sum = L.sum := by
  rw [List.take_of_length_le h]

lemma sum_take_cover (L : List ℚ) (hL : ∀ x ∈ L, 0 ≤ x) :
    ∀ t : ℚ, 0 ≤ t → t < L.sum →
      ∃ i, i < L.length ∧ (L.take i).sum ≤ t ∧ t < (L.take (i+1)).sum := by
  induction L with
  | nil =>
    intro t h0 hs
    simp only [List.sum_nil] at hs
    exact absurd (lt_of_le_of_lt h0 hs) (lt_irrefl 0)
  | cons x xs ih =>
    intro t h0 hs
    by_cases hx : t < x
    · exact ⟨0, by simp, by simpa using h0, by simpa using hx⟩
    · push_neg at hx
      have hxs : ∀ y ∈ xs, 0 ≤ y := fun y hy => hL y (List.mem_cons_of_mem x hy)
      obtain ⟨i, hi, h1, h2⟩ := ih hxs (t - x) (by linarith)
        (by simp only [List.sum_cons] at hs; linarith)
      refine ⟨i + 1, by simpa using hi, ?_, ?_⟩
      · simp only [List.take_succ_cons, List.sum_cons]; linarith
      · simp only [List.take_succ_cons, List.sum_cons]; linarith

lemma pathElapsedTime_mono (seq : Bool) (p : ScheduledPath) (e1 e2 : ℚ)
    (h : e1 ≤ e2) : pathElapsedTime seq p e1 ≤ pathElapsedTime seq p e2 := by
  unfold pathElapsedTime
  cases seq
  · simpa using h
  · simp only [if_true]
    split_ifs with ha hb
    · exact le_refl 0
    · linarith
    · linarith
    · linarith

lemma drawPathUpdate_fraction (seq grev srev : Bool) (e : ℚ) (p : ScheduledPath)
    (hl : p.length ≠ 0) :
    fracOfOffset (grev || srev) p.length (drawPathUpdate seq grev srev e p).dashoffset
      = visibleFraction seq p e (fracOfOffset (grev || srev) p.length p.dashoffset) := by
  unfold drawPathUpdate visibleFraction
  by_cases hmid : pathElapsedTime seq p e < p.duration ∧ pathElapsedTime seq p e > 0
  · rw [if_pos hmid, if_pos hmid]
    cases hgs : (grev || srev) <;> simp only [fracOfOffset, hgs] <;> field_simp <;>
      rw [mul_div_mul_right _ _ hl]
  · rw [if_neg hmid, if_neg hmid]
    by_cases hpast : pathElapsedTime seq p e > p.duration
    · rw [if_pos hpast, if_pos hpast]
      cases hgs : (grev || srev) <;> simp only [fracOfOffset, hgs] <;> field_simp
    · rw [if_neg hpast, if_neg hpast]

lemma jsMax_double (a b : ℚ) : jsMax (2 * a) (2 * b) = 2 * jsMax a b := by
  unfold jsMax
  by_cases h : b > a
  · rw [if_pos h, if_pos (by linarith)]
  · rw [if_neg h, if_neg (by intro hc; exact h (by linarith))]

lemma foldl_jsMax_double (L : List ℚ) :
    ∀ a : ℚ, (L.map (fun x => 2 * x)).foldl jsMax (2 * a) = 2 * L.foldl jsMax a := by
  induction L with
  | nil => intro a; simp
  | cons x xs ih =>
    intro a
    simp only [List.map_cons, List.foldl_cons, jsMax_double]
    exact ih (jsMax a x)

lemma sum_map_double (L : List ℚ) :
    (L.map (fun x => 2 * x)).sum = 2 * L.sum := by
  induction L with
  | nil => simp
  | cons x xs ih => simp [ih]; ring

lemma scaled_double (segs : List Segment) :
    scaled 2 segs = (scaled 1 segs).map (fun x => 2 * x) := by
  induction segs with
  | nil => simp [scaled]
  | cons s rest ih =>
    simp only [scaled, List.map_cons] at *
    rw [ih]
    congr 1
    ring

/-- C1: For every segment list scheduled in Sequential mode with the global
reverse flag false, the schedule built by paint assigns startOffset 0 to the
first path and startOffset (i-1) + durationScaled (i-1) to each later path;
with the nonnegative durations and multiplier that real inputs carry, the
paths' half-open activity intervals lie inside the timeline, are pairwise
non-overlapping, and collectively cover the interval from 0 to
totalDuration. -/
theorem C1_sequential_forward_schedule (segs : List Segment) (m : ℚ)
    (hm : 0 ≤ m) (hdur : ∀ seg ∈ segs, 0 ≤ seg.duration) :
    (0 < segs.length → (startOffsets segs m false).getD 0 0 = 0) ∧
    (∀ i : ℕ, i + 1 < segs.length →
      (startOffsets segs m false).getD (i+1) 0 =
        (startOffsets segs m false).getD i 0
          + (scaledDurations segs m false).getD i 0) ∧
    (∀ i : ℕ, i < segs.length →
      0 ≤ (startOffsets segs m false).getD i 0 ∧
      (startOffsets segs m false).getD i 0
          + (scaledDurations segs m false).getD i 0
        ≤ totalDuration segs m false true) ∧
    (∀ i j : ℕ, i < j → j < segs.length →
      (startOffsets segs m false).getD i 0
          + (scaledDurations segs m false).getD i 0
        ≤ (startOffsets segs m false).getD j 0) ∧
    (∀ t : ℚ, 0 ≤ t → t < totalDuration segs m false true →
      ∃ i : ℕ, i < segs.length ∧
        (startOffsets segs m false).getD i 0 ≤ t ∧
        t < (startOffsets segs m false).getD i 0
              + (scaledDurations segs m false).getD i 0) := by
  have hL : ∀ x ∈ scaled m segs, 0 ≤ x := scaled_nonneg m segs hm hdur
  have hlen : (scaled m segs).length = segs.length := scaled_length m segs
  refine ⟨?_, ?_, ?_, ?_, ?_⟩
  · intro h0
    rw [startOffsets_fwd segs m 0 h0]
    simp
  · intro i h
    have hi : i < segs.length := by omega
    rw [startOffsets_fwd segs m (i+1) h, startOffsets_fwd segs m i hi,
        scaledDurations_eq]
    exact sum_take_succ_getD (scaled m segs) i (by omega)
  · intro i hi
    rw [startOffsets_fwd segs m i hi, scaledDurations_eq, totalDuration_seq]
    refine ⟨sum_take_nonneg _ hL i, ?_⟩
    rw [← sum_take_succ_getD (scaled m segs) i (by omega)]
    calc ((scaled m segs).take (i+1)).sum
        ≤ ((scaled m segs).take (scaled m segs).length).sum :=
          sum_take_mono _ hL (i+1) (scaled m segs).length (by omega)
      _ = (scaled m segs).sum := sum_take_all _ _ (le_refl _)
  · intro i j hij hj
    have hi : i < segs.length := by omega
    rw [startOffsets_fwd segs m i hi, startOffsets_fwd segs m j hj,
        scaledDurations_eq,
        ← sum_take_succ_getD (scaled m segs) i (by omega)]
    exact sum_take_mono _ hL (i+1) j (by omega)
  · intro t ht0 htT
    rw [totalDuration_seq] at htT
    obtain ⟨i, hi, h1, h2⟩ := sum_take_cover (scaled m segs) hL t ht0 htT
    have hi2 : i < segs.length := by omega
    refine ⟨i, hi2, ?_, ?_⟩
    · rw [startOffsets_fwd segs m i hi2]; exact h1
    · rw [startOffsets_fwd segs m i hi2, scaledDurations_eq,
          ← sum_take_succ_getD (scaled m segs) i hi]
      exact h2

/-- Witness for C1: three 600ms segments at multiplier 1; the third path
starts where the second ends. -/
theorem C1_sequential_forward_schedule_witness :
    (startOffsets segsW 1 false).getD 2 0 =
      (startOffsets segsW 1 false).getD 1 0
        + (scaledDurations segsW 1 false).getD 1 0 :=
  (C1_sequential_forward_schedule segsW 1 (by decide) (by decide)).2.1 1 (by decide)

/-- C2: For every segment list scheduled in Sequential mode with the global
reverse flag true, start offsets follow the decrement-remaining scheme:
the first path starts at totalDuration minus its own scaled duration, each
later path starts exactly its own scaled duration below its predecessor,
the last path starts at 0, and (for the nonnegative durations real inputs
carry) the first path finishes last. -/
theorem C2_sequential_reverse_schedule (segs : List Segment) (m : ℚ)
    (hm : 0 ≤ m) (hdur : ∀ seg ∈ segs, 0 ≤ seg.duration) (hne : segs ≠ []) :
    (startOffsets segs m true).getD 0 0
        = totalDuration segs m true true - (scaledDurations segs m true).getD 0 0 ∧
    (∀ i : ℕ, i + 1 < segs.length →
      (startOffsets segs m true).getD (i+1) 0 =
        (startOffsets segs m true).getD i 0
          - (scaledDurations segs m true).getD (i+1) 0) ∧
    (startOffsets segs m true).getD (segs.length - 1) 0 = 0 ∧
    (∀ i : ℕ, i < segs.length →
      (startOffsets segs m true).getD i 0 + (scaledDurations segs m true).getD i 0
        ≤ (startOffsets segs m true).getD 0 0
            + (scaledDurations segs m true).getD 0 0) := by
  have hL : ∀ x ∈ scaled m segs, 0 ≤ x := scaled_nonneg m segs hm hdur
  have hlen : (scaled m segs).length = segs.length := scaled_length m segs
  have h0 : 0 < segs.length := List.length_pos.mpr hne
  refine ⟨?_, ?_, ?_, ?_⟩
  · rw [startOffsets_rev segs m 0 h0, totalDuration_seq, scaledDurations_eq,
        sum_take_succ_getD (scaled m segs) 0 (by omega)]
    simp
  · intro i h
    have hi : i < segs.length := by omega
    rw [startOffsets_rev segs m (i+1) h, startOffsets_rev segs m i hi,
        scaledDurations_eq,
        sum_take_succ_getD (scaled m segs) (i+1) (by omega)]
    ring
  · rw [startOffsets_rev segs m (segs.length - 1) (by omega)]
    have hidx : segs.length - 1 + 1 = (scaled m segs).length := by omega
    rw [hidx, sum_take_all _ _ (le_refl _)]
    ring
  · intro i hi
    rw [startOffsets_rev segs m i hi, startOffsets_rev segs m 0 h0,
        scaledDurations_eq,
        sum_take_succ_getD (scaled m segs) i (by omega),
        sum_take_succ_getD (scaled m segs) 0 (by omega)]
    have hnn : 0 ≤ ((scaled m segs).take i).sum := sum_take_nonneg _ hL i
    simp only [List.take_zero, List.sum_nil]
    linarith

/-- Witness for C2: three 600ms segments at multiplier 1, reverse schedule;
the last path starts at time 0. -/
theorem C2_sequential_reverse_schedule_witness :
    (startOffsets segsW 1 true).getD (segsW.length - 1) 0 = 0 :=
  (C2_sequential_reverse_schedule segsW 1 (by decide) (by decide)
    (by decide)).2.2.1

/-- C3: In Parallel mode (drawSequential false), regardless of the reverse
flag, each frame uses the timeline elapsed time as every path's local
elapsed time (effective start offset 0), and totalDuration is
longestDuration, the running maximum of the scaled durations (0 when there
are no segments); with the nonnegative durations real inputs carry this is
the maximum over the segments. -/
theorem C3_parallel_schedule (segs : List Segment) (m : ℚ) (rev : Bool)
    (hm : 0 ≤ m) (hdur : ∀ seg ∈ segs, 0 ≤ seg.duration) :
    (∀ (p : ScheduledPath) (e : ℚ), pathElapsedTime false p e = e) ∧
    totalDuration segs m rev false = (scaledDurations segs m rev).foldl jsMax 0 ∧
    (∀ x ∈ scaledDurations segs m rev, x ≤ totalDuration segs m rev false) ∧
    (segs ≠ [] → totalDuration segs m rev false ∈ scaledDurations segs m rev) ∧
    (segs = [] → totalDuration segs m rev false = 0) := by
  refine ⟨fun p e => rfl, ?_, ?_, ?_, ?_⟩
  · rw [totalDuration_par, scaledDurations_eq]
  · intro x hx
    rw [scaledDurations_eq] at hx
    rw [totalDuration_par]
    exact foldl_jsMax_mem_le _ 0 x hx
  · intro hne
    rw [totalDuration_par, scaledDurations_eq]
    rcases foldl_jsMax_eq_init_or_mem (scaled m segs) 0 with h | h
    · rw [h]
      obtain ⟨s, rest, rfl⟩ := List.exists_cons_of_ne_nil hne
      have hmem : s.duration * m ∈ scaled m (s :: rest) := by simp [scaled]
      have hle : s.duration * m ≤ 0 := by
        have := foldl_jsMax_mem_le (scaled m (s :: rest)) 0 _ hmem
        rw [h] at this
        exact this
      have hge : 0 ≤ s.duration * m := scaled_nonneg m (s :: rest) hm hdur _ hmem
      have hz : s.duration * m = 0 := le_antisymm hle hge
      rw [← hz]
      exact hmem
    · exact h
  · intro he
    subst he
    rw [totalDuration_par]
    simp [scaled]

/-- Witness for C3: three 600ms segments in parallel mode; totalDuration is
one of the scaled durations. -/
theorem C3_parallel_schedule_witness :
    totalDuration segsW 1 false false ∈ scaledDurations segsW 1 false :=
  (C3_parallel_schedule segsW 1 false (by decide) (by decide)).2.2.2.1 (by decide)

/-- C4 counterexample: with three 600ms segments, multiplier 2 yields scaled
durations of 1200 and totalDuration 3600 - double, not half, of the
multiplier-1 schedule (durations 600 and totalDuration 1800). -/
theorem C4_speed_counterexample :
    scaledDurations segsW 1 false = [600, 600, 600] ∧
    totalDuration segsW 1 false true = 1800 ∧
    scaledDurations segsW 2 false = [1200, 1200, 1200] ∧
    totalDuration segsW 2 false true = 3600 ∧
    ¬ totalDuration segsW 2 false true = totalDuration segsW 1 false true / 2 ∧
    ¬ scaledDurations segsW 2 false
        = (scaledDurations segsW 1 false).map (fun x => x / 2) := by
  norm_num [scaledDurations, startOffsets, totalDuration, buildSchedule,
    totalDurationInit, scaled, initLoop, segsW, segA]

/-- C4 amended: building the timeline with speedMultiplier 2 doubles every
scaled duration and doubles totalDuration, in both scheduling modes and for
either reverse flag, compared with speedMultiplier 1. -/
theorem C4_speed_doubles (segs : List Segment) (rev seq : Bool) :
    scaledDurations segs 2 rev = (scaledDurations segs 1 rev).map (fun x => 2 * x) ∧
    totalDuration segs 2 rev seq = 2 * totalDuration segs 1 rev seq := by
  constructor
  · rw [scaledDurations_eq, scaledDurations_eq, scaled_double]
  · cases seq
    · rw [totalDuration_par, totalDuration_par, scaled_double]
      have h := foldl_jsMax_double (scaled 1 segs) 0
      simpa using h
    · rw [totalDuration_seq, totalDuration_seq, scaled_double, sum_map_double]

/-- C7: For a fixed scheduled path and mode, over any frame chain the
computed visible fraction never decreases as elapsed time increases and
stays in the unit interval: if the previous fraction old was produced at
elapsed time e1 (so it is nonnegative, at most 1, and at most the linear
position old * duration ≤ pathElapsedTime at e1), then the fraction the
frame at any later elapsed time e2 computes is at least old, lies in [0,1],
and satisfies the same bound at e2; moreover the fraction function agrees
with the strokeDashoffset written by the draw step, in either sweep
direction. -/
theorem C7_visibleFraction_monotone_bounded (seq : Bool) (p : ScheduledPath)
    (e1 e2 old : ℚ) (hd : 0 < p.duration) (h12 : e1 ≤ e2)
    (h0 : 0 ≤ old) (hinv : old * p.duration ≤ pathElapsedTime seq p e1)
    (h1 : old ≤ 1) :
    old ≤ visibleFraction seq p e2 old ∧
    0 ≤ visibleFraction seq p e2 old ∧
    visibleFraction seq p e2 old ≤ 1 ∧
    visibleFraction seq p e2 old * p.duration ≤ pathElapsedTime seq p e2 ∧
    (∀ grev srev : Bool, p.length ≠ 0 →
      fracOfOffset (grev || srev) p.length
          (drawPathUpdate seq grev srev e2 p).dashoffset
        = visibleFraction seq p e2
            (fracOfOffset (grev || srev) p.length p.dashoffset)) := by
  have htt : pathElapsedTime seq p e1 ≤ pathElapsedTime seq p e2 :=
    pathElapsedTime_mono seq p e1 e2 h12
  have t1d : old * p.duration ≤ pathElapsedTime seq p e2 := le_trans hinv htt
  refine ⟨?_, ?_, ?_, ?_, fun g s hl => drawPathUpdate_fraction seq g s e2 p hl⟩
  · simp only [visibleFraction]
    split_ifs with hmid hpast
    · rw [le_div_iff₀ hd]
      exact t1d
    · exact h1
    · exact le_refl old
  · simp only [visibleFraction]
    split_ifs with hmid hpast
    · exact div_nonneg (le_of_lt hmid.2) (le_of_lt hd)
    · exact zero_le_one
    · exact h0
  · simp only [visibleFraction]
    split_ifs with hmid hpast
    · rw [div_le_one hd]
      exact le_of_lt hmid.1
    · exact le_refl 1
    · exact h1
  · simp only [visibleFraction]
    split_ifs with hmid hpast
    · rw [div_mul_cancel₀ _ (ne_of_gt hd)]
    · rw [one_mul]
      exact le_of_lt hpast
    · exact t1d

/-- Witness for C7: the 600ms path at elapsed times 300 then 450 with
previous fraction one half; the new fraction does not decrease. -/
theorem C7_visibleFraction_monotone_bounded_witness :
    (1/2 : ℚ) ≤ visibleFraction true pW 450 (1/2) :=
  (C7_visibleFraction_monotone_bounded true pW 300 450 (1/2) (by norm_num [pW])
    (by norm_num) (by norm_num) (by norm_num [pW, pathElapsedTime])
    (by norm_num)).1

/-- C8 counterexample: building the schedule with speedMultiplier -1 or 0,
or with a negative segment duration, raises no InvalidConfiguration error:
the loop runs to completion, produces a schedule with the nonsensical scaled
values, and paint still requests the first frame. -/
theorem C8_no_validation_counterexample :
    totalDuration [segA] (-1) false true = -600 ∧
    scaledDurations [segA] 0 false = [0] ∧
    totalDuration [segNeg] 1 false true = -5 ∧
    (paintInit dC8 sC8).2.pending = [0] ∧
    (paintInit dC8 sC8).1.totalDuration = -600 := by
  norm_num [totalDuration, scaledDurations, buildSchedule, totalDurationInit,
    scaled, initLoop, paintInit, requestFrame, segA, segNeg, dC8, sC8]

/-- C8 amended: the paint schedule build performs no validation at all: for
every speedMultiplier, including nonpositive ones, and every durations, the
build succeeds and produces the per-segment scaled durations
duration * speedMultiplier, with totalDuration their sum in sequential
mode. -/
theorem C8_no_validation (segs : List Segment) (m : ℚ) (rev : Bool)
    (_hm : m ≤ 0) :
    scaledDurations segs m rev = scaled m segs ∧
    (startOffsets segs m rev).length = segs.length ∧
    totalDuration segs m rev true = (scaled m segs).sum :=
  ⟨scaledDurations_eq segs m rev, startOffsets_length segs m rev,
    totalDuration_seq segs m rev⟩

/-- Witness for C8 amended, at speedMultiplier 0. -/
theorem C8_no_validation_witness :
    scaledDurations [segA] 0 false = scaled 0 [segA] ∧
    (startOffsets [segA] 0 false).length = [segA].length ∧
    totalDuration [segA] 0 false true = (scaled 0 [segA]).sum :=
  C8_no_validation [segA] 0 false (by norm_num)

/-- C5: evaluating the resume path at a failing input.  dC5 is paused at
elapsed time 100.  When the resume frame fires at timestamp 100,
adjustStartTime stores startTime = 100 - 100 = 0; the following draw frame
(timestamp 116) treats the stored 0 as unset under the JS truthiness test
and restarts the clock, sampling elapsed time 0 instead of 100.  When the
resume frame fires at any timestamp other than the frozen elapsed time
(here 200), the sampled elapsed time is exactly 100 as the claim states. -/
theorem C5_resume_zero_start_bug :
    dC5.elapsedTime = some 100 ∧
    runC5a.1.startTime = some 0 ∧
    runC5d.1.elapsedTime = some 0 ∧
    runC5d2.1.elapsedTime = some 100 := by
  norm_num [dC5, sC5, runC5a, runC5d, runC5d2, runC5a2, runC5r, pauseResume,
    adjustStartTime, draw, drawPathUpdate, pathElapsedTime, requestFrame,
    cancelFrame, buildSchedule, totalDurationInit, scaled, initLoop, segA]

/-- C6: evaluating the completion frame at a failing input.  dC6 animates a
single 600ms path of length 100; frames fire at timestamps 1000 (start),
1300 (mid-animation, dashoffset 50) and 1600, where elapsed time reaches
exactly totalDuration.  On that final frame the path's pathElapsedTime
equals its duration, so neither branch of the redraw conditional fires: the
dashoffset stays 50 (visible fraction one half, not 1), while the
onComplete branch is reached and no further frame is requested. -/
theorem C6_completion_boundary_bug :
    runC6b.1.paths.map ScheduledPath.dashoffset = [50] ∧
    dC6.totalDuration = 600 ∧
    runC6c.1.elapsedTime = some 600 ∧
    runC6c.1.paths.map ScheduledPath.dashoffset = [50] ∧
    runC6c.2.2 = true ∧
    runC6c.2.1 = runC6b.2.1 := by
  norm_num [dC6, sC6, runC6a, runC6b, runC6c, draw, drawPathUpdate,
    pathElapsedTime, requestFrame, buildSchedule, totalDurationInit, scaled,
    initLoop, segA]

/-- C9 counterexample: dC9 is running with frame handle 0 pending and
elapsed time 100 (startTime 50).  Invoking paint again requests a new frame
without cancelling handle 0, which stays pending, and leaves startTime
untouched, so the next draw frame (timestamp 150) samples elapsed time 100:
elapsed time does not restart from zero. -/
theorem C9_paint_again_counterexample :
    dC9.rAF = 0 ∧ sC9.pending = [0] ∧
    (paintInit dC9 sC9).2.pending = [0, 1] ∧
    (paintInit dC9 sC9).1.startTime = some 50 ∧
    (draw 150 (paintInit dC9 sC9).1 (paintInit dC9 sC9).2).1.elapsedTime
      = some 100 ∧
    ¬ (draw 150 (paintInit dC9 sC9).1 (paintInit dC9 sC9).2).1.elapsedTime
      = some 0 := by
  norm_num [dC9, sC9, paintInit, draw, drawPathUpdate, pathElapsedTime,
    requestFrame, buildSchedule, totalDurationInit, scaled, initLoop, segA]

/-- C9 amended: a second paint while a frame handle is pending rebuilds the
path schedule afresh and starts a new frame loop, but neither cancels the
prior pending handle (which stays pending, so the stale callback keeps
ticking) nor clears startTime, elapsedTime or paused (so elapsed time
continues from the prior start instant instead of restarting at zero). -/
theorem C9_paint_again_no_reset (d : PlaybackData) (s : Scheduler)
    (h : d.rAF ∈ s.pending) :
    (paintInit d s).2.pending = s.pending ++ [s.nextId] ∧
    d.rAF ∈ (paintInit d s).2.pending ∧
    (paintInit d s).1.startTime = d.startTime ∧
    (paintInit d s).1.elapsedTime = d.elapsedTime ∧
    (paintInit d s).1.paused = d.paused ∧
    (paintInit d s).1.paths
      = (buildSchedule d.svgData d.speedMultiplier d.reverse).paths := by
  refine ⟨rfl, ?_, rfl, rfl, rfl, rfl⟩
  simp only [paintInit, requestFrame]
  exact List.mem_append_left _ h

/-- Witness for C9 amended at the concrete running playback dC9. -/
theorem C9_paint_again_no_reset_witness :
    dC9.rAF ∈ (paintInit dC9 sC9).2.pending :=
  (C9_paint_again_no_reset dC9 sC9 (by norm_num [dC9, sC9])).2.1

/-- C10: erase clears startTime and elapsedTime and cancels the stored
frame handle, leaving every other field of the playback state unchanged, in
particular the paused flag; hence when erase is called while paused, the
following pauseResume call takes the resume branch: it clears paused and
schedules a frame instead of pausing. -/
theorem C10_erase_leaves_paused (d : PlaybackData) (s : Scheduler)
    (hp : d.paused = true) :
    (erase d s).1.startTime = none ∧
    (erase d s).1.elapsedTime = none ∧
    (erase d s).2 = cancelFrame d.rAF s ∧
    (erase d s).1.paused = d.paused ∧
    (erase d s).1.paths = d.paths ∧
    (erase d s).1.rAF = d.rAF ∧
    (erase d s).1.svgData = d.svgData ∧
    (erase d s).1.speedMultiplier = d.speedMultiplier ∧
    (erase d s).1.reverse = d.reverse ∧
    (erase d s).1.drawSequential = d.drawSequential ∧
    (erase d s).1.longestDuration = d.longestDuration ∧
    (erase d s).1.playhead = d.playhead ∧
    (erase d s).1.totalDuration = d.totalDuration ∧
    (pauseResume (erase d s).1 (erase d s).2).1.paused = false ∧
    (pauseResume (erase d s).1 (erase d s).2).2.2 = true ∧
    (pauseResume (erase d s).1 (erase d s).2).2.1.pending
      = (erase d s).2.pending ++ [(erase d s).2.nextId] := by
  refine ⟨rfl, rfl, rfl, rfl, rfl, rfl, rfl, rfl, rfl, rfl, rfl, rfl, rfl,
    ?_, ?_, ?_⟩
  all_goals simp [pauseResume, erase, hp, requestFrame]

/-- Witness for C10 at the concrete paused playback dC5. -/
theorem C10_erase_leaves_paused_witness :
    (erase dC5 sC5).1.startTime = none ∧
    (erase dC5 sC5).1.elapsedTime = none ∧
    (erase dC5 sC5).2 = cancelFrame dC5.rAF sC5 ∧
    (erase dC5 sC5).1.paused = dC5.paused ∧
    (erase dC5 sC5).1.paths = dC5.paths ∧
    (erase dC5 sC5).1.rAF = dC5.rAF ∧
    (erase dC5 sC5).1.svgData = dC5.svgData ∧
    (erase dC5 sC5).1.speedMultiplier = dC5.speedMultiplier ∧
    (erase dC5 sC5).1.reverse = dC5.reverse ∧
    (erase dC5 sC5).1.drawSequential = dC5.drawSequential ∧
    (erase dC5 sC5).1.longestDuration = dC5.longestDuration ∧
    (erase dC5 sC5).1.playhead = dC5.playhead ∧
    (erase dC5 sC5).1.totalDuration = dC5.totalDuration ∧
    (pauseResume (erase dC5 sC5).1 (erase dC5 sC5).2).1.paused = false ∧
    (pauseResume (erase dC5 sC5).1 (erase dC5 sC5).2).2.2 = true ∧
    (pauseResume (erase dC5 sC5).1 (erase dC5 sC5).2).2.1.pending
      = (erase dC5 sC5).2.pending ++ [(erase dC5 sC5).2.nextId] :=
  C10_erase_leaves_paused dC5 sC5 rfl
